import Mathlib

/-!
# CDK2 starter-code: the fixed-response HTTP listener

Verification development for `starter-code/index.js`:

```
const http = require('http');

const port = 80;

const server = http.createServer((req, res) => {
  res.statusCode = 200;
  res.setHeader('Content-Type', 'text/plain');
  res.end('Hello aws cloud demos!!ver26');
});

server.listen(port,() => {
  console.log(`Server running at ${port}`);
});
```

The program is embedded at the level of the objects the script touches: the
`IncomingMessage` and `ServerResponse` handed to the request listener, the
event listeners registered on the server, the bind attempt made by `listen`
and the text written by `console.log`.  The Node.js platform calls used by the
script (`setHeader`, `end`, `listen`, event emission) are modelled with their
documented guards, so that "the handler raises no error" is a statement with
content.  A response to a HEAD request is created without a body, and
`end` drops the data given to it on such a response; this is modelled, since
it decides what body a request receives.  What the transport does below that
level (wire framing, the headers Node adds on its own) is not part of
`index.js` and is not modelled.
-/

namespace CDK2

/-! ## Platform objects -/

/-- Errors the platform calls used by the script can raise. -/
inductive JsError where
  | ERR_HTTP_HEADERS_SENT
  | ERR_INVALID_HTTP_TOKEN
  | ERR_INVALID_CHAR
  | ERR_HTTP_INVALID_STATUS_CODE
  | ERR_STREAM_WRITE_AFTER_END
  deriving DecidableEq

/-- The request object `req` given to the listener.  All fields are
unconstrained text, so malformed requests are included. -/
structure IncomingMessage where
  method : String
  url : String
  httpVersion : String
  headers : List (String × String)
  body : String
  deriving DecidableEq

/-- One response header as `OutgoingMessage` stores it: the lower-cased key,
then the name and the value as given to `setHeader`. -/
structure HeaderEntry where
  key : String
  name : String
  value : String
  deriving DecidableEq

/-- The response object `res` given to the listener, reduced to the fields
the script can observe or change.  `hasBody` says whether the response may
carry a body; `body` is the body text written to the response. -/
structure ServerResponse where
  statusCode : Nat
  headers : List HeaderEntry
  headersSent : Bool
  hasBody : Bool
  body : String
  finished : Bool
  deriving DecidableEq

/-- The test `req.method === "HEAD"` made when a response is created. -/
def isHead (req : IncomingMessage) : Bool :=
  req.method == "HEAD"

/-- The response the server creates for an incoming request before it calls
the listener (`new ServerResponse(req)`): default status 200, no headers,
nothing sent, and no body allowed when the request method is `HEAD`. -/
def newResponse (req : IncomingMessage) : ServerResponse :=
  { statusCode := 200, headers := [], headersSent := false, hasBody := !isHead req,
    body := "", finished := false }

/-- Status codes whose responses never carry a body: 204, 304 and `100..199`. -/
def statusForbidsBody (n : Nat) : Bool :=
  n == 204 || n == 304 || (100 ≤ n && n ≤ 199)

/-- Characters accepted in a header name (the HTTP token set checked by
`validateHeaderName`): letters, digits and the fifteen listed punctuation
code points. -/
def isTokenChar (c : Char) : Bool :=
  c.isAlphanum || [33, 35, 36, 37, 38, 39, 42, 43, 45, 46, 94, 95, 96, 124, 126].contains c.toNat

/-- Header name check of `validateHeaderName`: non-empty and made of token characters. -/
def checkIsHttpToken (name : String) : Bool :=
  !name.data.isEmpty && name.data.all isTokenChar

/-- Header value check of `validateHeaderValue`: true when the value holds a
character outside tab, `0x20..0x7e` and `0x80..0xff`. -/
def checkInvalidHeaderChar (value : String) : Bool :=
  value.data.any fun c =>
    !(c.toNat == 9 || (32 ≤ c.toNat && c.toNat ≤ 126) || (128 ≤ c.toNat && c.toNat ≤ 255))

/-- JavaScript `toLowerCase` on the ASCII range, enough for header keys. -/
def toLowerCase (s : String) : String :=
  String.mk (s.data.map Char.toLower)

/-- Property store `headers[key] = entry`: an existing key keeps its place and
gets the new entry, a new key goes last. -/
def storeHeader (e : HeaderEntry) : List HeaderEntry → List HeaderEntry
  | [] => [e]
  | h :: t => if h.key = e.key then e :: t else h :: storeHeader e t

/-- The assignment `res.statusCode = n`. -/
def ServerResponse.setStatusCode (res : ServerResponse) (n : Nat) : ServerResponse :=
  { res with statusCode := n }

/-- The call `res.setHeader(name, value)`: throws once the headers are sent,
on an invalid name, or on an invalid value; otherwise stores the header. -/
def ServerResponse.setHeader (res : ServerResponse) (name value : String) :
    Except JsError ServerResponse :=
  if res.headersSent then .error .ERR_HTTP_HEADERS_SENT
  else if !checkIsHttpToken name then .error .ERR_INVALID_HTTP_TOKEN
  else if checkInvalidHeaderChar value then .error .ERR_INVALID_CHAR
  else .ok { res with headers := storeHeader ⟨toLowerCase name, name, value⟩ res.headers }

/-- Sending the headers of a response that has not sent them yet: rejects a
status code outside `100..999`, and a status code that forbids a body makes
the response body-less. -/
def ServerResponse.implicitHeader (res : ServerResponse) : Except JsError ServerResponse :=
  if res.statusCode < 100 || 999 < res.statusCode then .error .ERR_HTTP_INVALID_STATUS_CODE
  else .ok { res with
    headersSent := true
    hasBody := res.hasBody && !statusForbidsBody res.statusCode }

/-- The call `res.end(data)` (named `end_`, since `end` is reserved): reports
an error on a finished response; if the headers are not sent yet it sends
them first; then it writes `data` when the response may carry a body and
drops it otherwise; and it finishes the response. -/
def ServerResponse.end_ (res : ServerResponse) (data : String) :
    Except JsError ServerResponse :=
  if res.finished then .error .ERR_STREAM_WRITE_AFTER_END
  else
    match (if res.headersSent then .ok res else res.implicitHeader) with
    | .error e => .error e
    | .ok sent =>
      .ok { sent with
        body := if sent.hasBody then sent.body ++ data else sent.body
        finished := true }

/-! ## The script -/

/-- The constant declared by `const port = 80;`. -/
def port : Nat := 80

/-- The request listener passed to `http.createServer`
(`index.js`, lines 5 to 9). -/
def requestListener (_req : IncomingMessage) (res : ServerResponse) :
    Except JsError ServerResponse := do
  let res := res.setStatusCode 200
  let res ← res.setHeader "Content-Type" "text/plain"
  res.end_ "Hello aws cloud demos!!ver26"

/-- The response every request is specified to receive. -/
def fixedResponse : ServerResponse :=
  { statusCode := 200
    headers := [⟨"content-type", "Content-Type", "text/plain"⟩]
    headersSent := true
    hasBody := true
    body := "Hello aws cloud demos!!ver26"
    finished := true }

/-- The fixed response without its body, as a body-less response ends up. -/
def headResponse : ServerResponse :=
  { fixedResponse with hasBody := false, body := "" }

/-- The completed response for a request: the fixed response, without its
body when the request method is `HEAD`. -/
def responseFor (req : IncomingMessage) : ServerResponse :=
  if isHead req then headResponse else fixedResponse

/-- The call `res.getHeader(name)`: the value stored under the lower-cased name. -/
def ServerResponse.getHeader (res : ServerResponse) (name : String) : Option String :=
  (res.headers.find? fun h => h.key = toLowerCase name).map HeaderEntry.value

/-! ## The process: server object, events, standard output -/

/-- The two arrow functions of the script, as they are registered on the server. -/
inductive Callback where
  | onRequest
  | onListening
  deriving DecidableEq

/-- A registered event listener; `once` listeners are removed when they fire. -/
structure Listener where
  event : String
  callback : Callback
  once : Bool
  deriving DecidableEq

/-- The server object: its registered listeners and the port it is bound to, if any. -/
structure Server where
  listeners : List Listener
  address : Option Nat
  deriving DecidableEq

/-- Whether the process is alive or has exited with a code. -/
inductive Status where
  | running
  | exited (code : Nat)
  deriving DecidableEq

/-- Observable state of the running script: text written to standard output,
the server object, the ports `listen` tried to bind (in order), the responses
completed so far (in order), and the process status. -/
structure Process where
  stdout : String
  server : Server
  binds : List Nat
  responses : List ServerResponse
  status : Status
  deriving DecidableEq

/-- Outcome of the bind attempt made by `listen`, chosen by the environment:
the port was acquired, or it was refused with a system error code such as
`EADDRINUSE` or `EACCES`. -/
inductive BindResult where
  | bound
  | failed (code : String)
  deriving DecidableEq

/-- Events emitted on the server. -/
inductive Event where
  | listening
  | error (code : String)
  | request (req : IncomingMessage)
  deriving DecidableEq

/-- The name under which listeners for an event are registered. -/
def Event.name : Event → String
  | .listening => "listening"
  | .error _ => "error"
  | .request _ => "request"

/-- The call `console.log(line)`: the line and a newline go to standard output. -/
def consoleLog (line : String) (p : Process) : Process :=
  { p with stdout := p.stdout ++ line ++ "\n" }

/-- The callback passed to `server.listen` (`index.js`, lines 11 to 13):
it logs the startup notice built from the constant `port`. -/
def listeningListener (p : Process) : Process :=
  consoleLog ("Server running at " ++ toString port) p

/-- Running one registered callback for an event.  A dead process runs
nothing.  For a request the server creates a new response, calls the request
listener on it and records the completed response; an exception thrown by the
listener is uncaught and ends the process with exit code 1. -/
def runCallback (ev : Event) (p : Process) (cb : Callback) : Process :=
  match p.status with
  | .exited _ => p
  | .running =>
    match cb, ev with
    | .onListening, _ => listeningListener p
    | .onRequest, .request req =>
      match requestListener req (newResponse req) with
      | .ok res => { p with responses := p.responses ++ [res] }
      | .error _ => { p with status := .exited 1 }
    | .onRequest, _ => p

/-- The call `server.emit(ev)`: with no listener registered, an `error` event
is thrown as an uncaught exception (exit code 1) and any other event is
dropped; otherwise the `once` listeners for the event are removed and the
registered callbacks run in registration order. -/
def emit (ev : Event) (p : Process) : Process :=
  match p.status with
  | .exited _ => p
  | .running =>
    let hit := p.server.listeners.filter fun l => l.event = ev.name
    if hit.isEmpty then
      match ev with
      | .error _ => { p with status := .exited 1 }
      | _ => p
    else
      let keep := p.server.listeners.filter fun l => !(l.event = ev.name && l.once)
      (hit.map Listener.callback).foldl (runCallback ev)
        { p with server := { p.server with listeners := keep } }

/-- The call `http.createServer(requestListener)`: a server that is not bound
yet, with the function registered for `request` events. -/
def createServer : Server :=
  { listeners := [⟨"request", .onRequest, false⟩], address := none }

/-- The call `server.listen(port, callback)`: registers the callback once for
`listening`, makes one bind attempt on `port`, and emits `listening` when the
port was acquired or `error` when it was refused. -/
def listen (portArg : Nat) (outcome : BindResult) (p : Process) : Process :=
  let p := { p with
    server := { p.server with
      listeners := p.server.listeners ++ [⟨"listening", .onListening, true⟩] }
    binds := p.binds ++ [portArg] }
  match outcome with
  | .bound => emit .listening { p with server := { p.server with address := some portArg } }
  | .failed code => emit (.error code) p

/-- The whole script, run against the outcome of the bind attempt. -/
def main (outcome : BindResult) : Process :=
  let server := createServer
  listen port outcome
    { stdout := "", server := server, binds := [], responses := [], status := .running }

/-- Arrival of one request: the transport emits `request` only on a server
that is bound to a port. -/
def deliver (p : Process) (req : IncomingMessage) : Process :=
  if p.server.address.isSome then emit (.request req) p else p

/-- Arrival of a finite sequence of requests, handled one after the other. -/
def serveAll (reqs : List IncomingMessage) (p : Process) : Process :=
  reqs.foldl deliver p

/-- Number of newline characters in a text, that is, of complete lines. -/
def lineCount (s : String) : Nat :=
  s.data.count (Char.ofNat 10)

/-! ## Concurrent handling: statement-level interleaving -/

/-- Statement number `pc` of the request listener body (`index.js`, lines 6,
7 and 8); past the last statement there is nothing left to run. -/
def listenerStmt (_req : IncomingMessage) (pc : Nat) (res : ServerResponse) :
    Except JsError ServerResponse :=
  match pc with
  | 0 => .ok (res.setStatusCode 200)
  | 1 => res.setHeader "Content-Type" "text/plain"
  | 2 => res.end_ "Hello aws cloud demos!!ver26"
  | _ => .ok res

/-- One request being handled: the request, the index of the next listener
statement, the response object of this request, and the error thrown, if any. -/
structure Conn where
  req : IncomingMessage
  pc : Nat
  res : ServerResponse
  thrown : Option JsError
  deriving DecidableEq

/-- A request as it enters handling: new response, first statement next. -/
def Conn.start (req : IncomingMessage) : Conn :=
  { req := req, pc := 0, res := newResponse req, thrown := none }

/-- A request whose listener has run to completion with the response for it. -/
def Conn.done (req : IncomingMessage) : Conn :=
  { req := req, pc := 3, res := responseFor req, thrown := none }

/-- One step of one request: run its next listener statement on its own
response.  A request that has thrown or has finished does not move. -/
def Conn.step (c : Conn) : Conn :=
  if c.thrown.isSome || decide (3 ≤ c.pc) then c
  else
    match listenerStmt c.req c.pc c.res with
    | .ok r => { c with pc := c.pc + 1, res := r }
    | .error e => { c with thrown := some e }

/-- The requests of simultaneous connections, all accepted and none handled yet. -/
def accept (reqs : List IncomingMessage) : List Conn :=
  reqs.map Conn.start

/-- The scheduler picks connection `i`: it takes one step, the others stay. -/
def stepAt : Nat → List Conn → List Conn
  | _, [] => []
  | 0, c :: cs => c.step :: cs
  | i + 1, c :: cs => c :: stepAt i cs

/-- Running a schedule: the list says which connection steps next. -/
def runSchedule (sched : List Nat) (cs : List Conn) : List Conn :=
  sched.foldl (fun cs i => stepAt i cs) cs

/-! ## Lemmas about the platform calls -/

/-- After `storeHeader e`, looking up the key of `e` finds `e`. -/
theorem storeHeader_find (e : HeaderEntry) (hs : List HeaderEntry) :
    (storeHeader e hs).find? (fun h => h.key = e.key) = some e := by
  induction hs with
  | nil => simp [storeHeader]
  | cons h t ih =>
    by_cases hk : h.key = e.key
    · simp [storeHeader, hk]
    · simp [storeHeader, hk, ih]

/-- On a response whose headers are not sent and that is not finished, the
request listener runs to completion and returns this response: the data is
written when the response may carry a body and dropped otherwise. -/
theorem requestListener_unsent (req : IncomingMessage) (res : ServerResponse)
    (hSent : res.headersSent = false) (hFin : res.finished = false) :
    requestListener req res = .ok
      { statusCode := 200
        headers := storeHeader ⟨"content-type", "Content-Type", "text/plain"⟩ res.headers
        headersSent := true
        hasBody := res.hasBody
        body := if res.hasBody then res.body ++ "Hello aws cloud demos!!ver26" else res.body
        finished := true } := by
  have hName : checkIsHttpToken "Content-Type" = true := by decide
  have hValue : checkInvalidHeaderChar "text/plain" = false := by decide
  have hKey : toLowerCase "Content-Type" = "content-type" := by decide
  have hStatus : statusForbidsBody 200 = false := by decide
  simp only [requestListener, ServerResponse.setStatusCode, ServerResponse.setHeader,
    ServerResponse.end_, ServerResponse.implicitHeader, hSent, hFin, hName, hValue, hKey,
    hStatus, bind, Except.bind]
  simp [hStatus]

/-- On the response created for a request, the listener completes with the
response for that request. -/
theorem requestListener_newResponse (req : IncomingMessage) :
    requestListener req (newResponse req) = .ok (responseFor req) := by
  rw [requestListener_unsent req (newResponse req) rfl rfl]
  unfold newResponse responseFor
  cases isHead req <;> rfl

/-- On a bound, running process with the script's listeners, a request adds
its response to the completed responses and changes nothing else. -/
theorem deliver_serving (p : Process) (req : IncomingMessage) (n : Nat)
    (hRun : p.status = .running)
    (hSrv : p.server = ⟨[⟨"request", .onRequest, false⟩], some n⟩) :
    deliver p req = { p with responses := p.responses ++ [responseFor req] } := by
  obtain ⟨out, srv, binds, rs, st⟩ := p
  simp only at hRun hSrv
  subst hRun hSrv
  have hEmit : deliver ⟨out, ⟨[⟨"request", .onRequest, false⟩], some n⟩, binds, rs, .running⟩ req =
      runCallback (.request req)
        ⟨out, ⟨[⟨"request", .onRequest, false⟩], some n⟩, binds, rs, .running⟩ .onRequest := rfl
  rw [hEmit]
  simp only [runCallback, requestListener_newResponse]

/-- Serving any sequence of requests on such a process only appends the
response of each request, in order. -/
theorem serveAll_serving (reqs : List IncomingMessage) (p : Process) (n : Nat)
    (hRun : p.status = .running)
    (hSrv : p.server = ⟨[⟨"request", .onRequest, false⟩], some n⟩) :
    serveAll reqs p = { p with responses := p.responses ++ reqs.map responseFor } := by
  induction reqs generalizing p with
  | nil => simp [serveAll]
  | cons r rs ih =>
    have hd := deliver_serving p r n hRun hSrv
    have := ih { p with responses := p.responses ++ [responseFor r] } hRun hSrv
    simp only [serveAll, List.foldl_cons] at this ⊢
    rw [hd, this]
    simp [List.append_assoc]

/-- After a successful start, serving a sequence of requests yields the
started process with the response of each request, in order. -/
theorem serveAll_main_bound (reqs : List IncomingMessage) :
    serveAll reqs (main .bound) = { main .bound with responses := reqs.map responseFor } := by
  have h := serveAll_serving reqs (main .bound) 80 rfl rfl
  rw [h]
  rfl

/-- A process that has exited handles no request. -/
theorem serveAll_exited (reqs : List IncomingMessage) (p : Process) (c : Nat)
    (hEx : p.status = .exited c) : serveAll reqs p = p := by
  induction reqs with
  | nil => rfl
  | cons r rs ih =>
    have hd : deliver p r = p := by
      unfold deliver emit
      split
      · simp [hEx]
      · rfl
    simp only [serveAll, List.foldl_cons] at ih ⊢
    rw [hd, ih]

/-! ## The request listener -/

/-- C1 (as amended): for every request, on the response the server creates
for it, the listener raises no error and leaves the response with status code
200 and header `Content-Type` equal to `text/plain`; the body is
`Hello aws cloud demos!!ver26`, except for a request whose method is `HEAD`,
where the body is empty. -/
theorem requestListener_response_by_method (req : IncomingMessage) :
    ∃ out, requestListener req (newResponse req) = .ok out ∧ out.statusCode = 200 ∧
      out.getHeader "Content-Type" = some "text/plain" ∧
      out.body = (if req.method = "HEAD" then "" else "Hello aws cloud demos!!ver26") ∧
      out.finished = true := by
  refine ⟨responseFor req, requestListener_newResponse req, ?_, ?_, ?_, ?_⟩
  all_goals
    unfold responseFor isHead
    by_cases h : req.method = "HEAD" <;> simp [h] <;> rfl

/-- C1 as stated fails for a `HEAD` request: no completed response with the
literal body comes out of the listener. -/
theorem requestListener_head_has_no_body :
    ¬ ∃ out, requestListener ⟨"HEAD", "/", "1.1", [], ""⟩
        (newResponse ⟨"HEAD", "/", "1.1", [], ""⟩) = .ok out ∧
      out.statusCode = 200 ∧ out.getHeader "Content-Type" = some "text/plain" ∧
      out.body = "Hello aws cloud demos!!ver26" := by
  rintro ⟨out, hOut, -, -, hBody⟩
  have hRun : requestListener ⟨"HEAD", "/", "1.1", [], ""⟩
      (newResponse ⟨"HEAD", "/", "1.1", [], ""⟩) = .ok headResponse := rfl
  rw [hRun] at hOut
  injection hOut with hEq
  subst hEq
  exact absurd hBody (by decide)

/-- C2 (as amended): the response depends on the request only through
whether its method is `HEAD`.  On the same response object the listener
returns the same result for any two requests; the served status and headers
are the same for any two requests; two requests that are both `HEAD` or both
not `HEAD` are served the same response, body included; and a request
handled twice gets the same response both times. -/
theorem response_depends_on_head_only (r1 r2 : IncomingMessage) (res : ServerResponse) :
    requestListener r1 res = requestListener r2 res ∧
    (serveAll [r1] (main .bound)).responses.map (fun r => (r.statusCode, r.headers)) =
      (serveAll [r2] (main .bound)).responses.map (fun r => (r.statusCode, r.headers)) ∧
    ((r1.method = "HEAD" ↔ r2.method = "HEAD") →
      (serveAll [r1] (main .bound)).responses = (serveAll [r2] (main .bound)).responses) ∧
    ∃ out, (serveAll [r1, r1] (main .bound)).responses = [out, out] := by
  refine ⟨rfl, ?_, fun hIff => ?_, responseFor r1, ?_⟩
  · rw [serveAll_main_bound, serveAll_main_bound]
    show [responseFor r1].map _ = [responseFor r2].map _
    unfold responseFor
    cases isHead r1 <;> cases isHead r2 <;> rfl
  · rw [serveAll_main_bound, serveAll_main_bound]
    show [responseFor r1] = [responseFor r2]
    have hHead : isHead r1 = isHead r2 := by
      unfold isHead
      by_cases h1 : r1.method = "HEAD"
      · simp [h1, hIff.mp h1]
      · have h2 : ¬ r2.method = "HEAD" := fun h => h1 (hIff.mpr h)
        simp [h1, h2]
    unfold responseFor
    rw [hHead]
  · rw [serveAll_main_bound]
    rfl

/-- C2 at a concrete input: a `GET` and a `POST`, neither of them `HEAD`,
are served the same response. -/
theorem response_depends_on_head_only_witness :
    (serveAll [⟨"GET", "/", "1.1", [], ""⟩] (main .bound)).responses =
      (serveAll [⟨"POST", "/anything", "1.1", [("X-A", "b")], "data"⟩] (main .bound)).responses :=
  (response_depends_on_head_only ⟨"GET", "/", "1.1", [], ""⟩
    ⟨"POST", "/anything", "1.1", [("X-A", "b")], "data"⟩ (newResponse ⟨"GET", "/", "1.1", [], ""⟩)).2.2.1
    (by decide)

/-- C2 as stated fails: a `GET` and a `HEAD` request for the same path are
served different bodies. -/
theorem get_and_head_bodies_differ :
    (serveAll [⟨"GET", "/", "1.1", [], ""⟩] (main .bound)).responses.map ServerResponse.body ≠
      (serveAll [⟨"HEAD", "/", "1.1", [], ""⟩] (main .bound)).responses.map ServerResponse.body := by
  decide

/-- C7: the listener sets no header besides `Content-Type`.  On a response
that carries no header yet, the headers after the listener ran are the single
entry `Content-Type: text/plain`, whatever headers the request carries. -/
theorem only_content_type_header (req : IncomingMessage) (res : ServerResponse)
    (hSent : res.headersSent = false) (hFin : res.finished = false) (hNone : res.headers = []) :
    ∃ out, requestListener req res = .ok out ∧
      out.headers = [⟨"content-type", "Content-Type", "text/plain"⟩] ∧
      ∀ hs : List (String × String),
        requestListener { req with headers := hs } res = .ok out := by
  refine ⟨_, requestListener_unsent req res hSent hFin, ?_, fun hs => ?_⟩
  · simp only [hNone]
    rfl
  · exact requestListener_unsent _ res hSent hFin

/-- C7 at a concrete input: a request carrying two headers of its own. -/
theorem only_content_type_header_witness :
    ∃ out, requestListener ⟨"GET", "/", "1.1", [("X-Trace", "abc"), ("Cookie", "k=v")], ""⟩
        (newResponse ⟨"GET", "/", "1.1", [("X-Trace", "abc"), ("Cookie", "k=v")], ""⟩) = .ok out ∧
      out.headers = [⟨"content-type", "Content-Type", "text/plain"⟩] ∧
      ∀ hs : List (String × String),
        requestListener
          { (⟨"GET", "/", "1.1", [("X-Trace", "abc"), ("Cookie", "k=v")], ""⟩ : IncomingMessage)
            with headers := hs }
          (newResponse ⟨"GET", "/", "1.1", [("X-Trace", "abc"), ("Cookie", "k=v")], ""⟩) = .ok out :=
  only_content_type_header ⟨"GET", "/", "1.1", [("X-Trace", "abc"), ("Cookie", "k=v")], ""⟩
    (newResponse ⟨"GET", "/", "1.1", [("X-Trace", "abc"), ("Cookie", "k=v")], ""⟩) rfl rfl rfl

/-! ## Startup -/

/-- C3: when the bind attempt fails, the `listening` callback never runs (it
is still registered, unfired), standard output stays empty, exactly one bind
attempt was made, the server is not bound, the process has exited with the
nonzero code 1, and no request is served afterwards. -/
theorem bind_failure_is_fatal (code : String) (reqs : List IncomingMessage) :
    (main (.failed code)).stdout = "" ∧
    (⟨"listening", .onListening, true⟩ : Listener) ∈ (main (.failed code)).server.listeners ∧
    (main (.failed code)).binds = [80] ∧
    (main (.failed code)).server.address = none ∧
    (∃ c, (main (.failed code)).status = .exited c ∧ c ≠ 0) ∧
    serveAll reqs (main (.failed code)) = main (.failed code) := by
  refine ⟨rfl, ?_, rfl, rfl, ⟨1, rfl, by decide⟩, serveAll_exited reqs _ 1 rfl⟩
  show _ ∈ [(⟨"request", .onRequest, false⟩ : Listener), ⟨"listening", .onListening, true⟩]
  simp

/-- C4: when the bind attempt succeeds, standard output holds exactly the
line `Server running at 80`; the callback that wrote it is no longer
registered, and after any sequence of requests standard output is still that
one line. -/
theorem startup_notice_once (reqs : List IncomingMessage) :
    (main .bound).stdout = "Server running at 80\n" ∧
    (∀ l ∈ (main .bound).server.listeners, l.callback ≠ .onListening) ∧
    (serveAll reqs (main .bound)).stdout = "Server running at 80\n" ∧
    lineCount (serveAll reqs (main .bound)).stdout = 1 := by
  refine ⟨by decide, by decide, ?_, ?_⟩
  · rw [serveAll_main_bound]
    show (main .bound).stdout = "Server running at 80\n"
    decide
  · rw [serveAll_main_bound]
    show lineCount (main .bound).stdout = 1
    decide

/-- C5 (as amended): handling requests has no effect besides the responses.
After a successful start and any finite sequence of requests, the process
state (standard output, server object, bind attempts, status) is what it was
right after the start, standard output is the one startup line, and the
request at every position received the response for that request alone:
status 200, the single header `Content-Type: text/plain`, and the body
`Hello aws cloud demos!!ver26`, or the empty body when its method is `HEAD`. -/
theorem requests_have_no_side_effect (reqs : List IncomingMessage) :
    serveAll reqs (main .bound) = { main .bound with responses := reqs.map responseFor } ∧
    (serveAll reqs (main .bound)).stdout = "Server running at 80\n" ∧
    (serveAll reqs (main .bound)).status = .running ∧
    (∀ i : Nat, (serveAll reqs (main .bound)).responses[i]? = reqs[i]?.map responseFor) ∧
    ∀ req : IncomingMessage,
      (responseFor req).statusCode = 200 ∧
      (responseFor req).headers = [⟨"content-type", "Content-Type", "text/plain"⟩] ∧
      (responseFor req).body =
        (if req.method = "HEAD" then "" else "Hello aws cloud demos!!ver26") := by
  refine ⟨serveAll_main_bound reqs, ?_, ?_, fun i => ?_, fun req => ?_⟩
  · rw [serveAll_main_bound]
    show (main .bound).stdout = "Server running at 80\n"
    decide
  · rw [serveAll_main_bound]
    rfl
  · rw [serveAll_main_bound]
    simp
  · unfold responseFor isHead
    by_cases h : req.method = "HEAD" <;> simp [h] <;> decide

/-- C5 as stated fails: in the sequence `GET`, `HEAD` the second request does
not receive the literal body. -/
theorem head_in_sequence_has_no_body :
    ¬ ∀ i : Nat, i < 2 →
      ((serveAll [⟨"GET", "/", "1.1", [], ""⟩, ⟨"HEAD", "/", "1.1", [], ""⟩]
          (main .bound)).responses[i]?).map ServerResponse.body =
        some "Hello aws cloud demos!!ver26" := by
  intro h
  exact absurd (h 1 (by decide)) (by decide)

/-- C6: the port is the constant 80; whatever the outcome, the one bind
attempt of `listen` is on that port; after a successful start the server is
bound to it, the startup notice reports the same number, and it is still the
bound port after any sequence of requests. -/
theorem port_is_fixed (outcome : BindResult) (reqs : List IncomingMessage) :
    port = 80 ∧
    (main outcome).binds = [port] ∧
    (main .bound).server.address = some port ∧
    (main .bound).stdout = "Server running at " ++ toString port ++ "\n" ∧
    (serveAll reqs (main .bound)).server.address = some 80 ∧
    (serveAll reqs (main .bound)).binds = [80] := by
  refine ⟨rfl, ?_, rfl, by decide, ?_, ?_⟩
  · cases outcome <;> rfl
  · rw [serveAll_main_bound]
    rfl
  · rw [serveAll_main_bound]
    rfl

/-! ## Concurrent handling -/

/-- Running the listener is running its three statements in order. -/
theorem requestListener_eq_stmts (req : IncomingMessage) (res : ServerResponse) :
    requestListener req res =
      (listenerStmt req 0 res >>= listenerStmt req 1 >>= listenerStmt req 2) := by
  rfl

/-- Stepping connection `j` changes position `j` only. -/
theorem stepAt_getElem? (j i : Nat) (cs : List Conn) :
    (stepAt j cs)[i]? = if i = j then cs[i]?.map Conn.step else cs[i]? := by
  induction cs generalizing i j with
  | nil => simp [stepAt]
  | cons c t ih =>
    cases j with
    | zero =>
      cases i with
      | zero => simp [stepAt]
      | succ k => simp [stepAt]
    | succ m =>
      cases i with
      | zero => simp [stepAt]
      | succ k => simp [stepAt, ih]

/-- Under any schedule, the state of connection `i` is its initial state
advanced by as many steps as the schedule gave to `i`. -/
theorem runSchedule_getElem? (sched : List Nat) (cs : List Conn) (i : Nat) :
    (runSchedule sched cs)[i]? = cs[i]?.map (Conn.step^[sched.count i]) := by
  induction sched generalizing cs with
  | nil => simp [runSchedule]
  | cons j s ih =>
    have h := ih (stepAt j cs)
    simp only [runSchedule, List.foldl_cons] at h ⊢
    rw [h, stepAt_getElem?]
    by_cases hij : i = j
    · subst hij
      cases hc : cs[i]? with
      | none => simp
      | some c => simp [Function.iterate_succ_apply]
    · have hji : ¬ j = i := fun e => hij e.symm
      simp [hij, hji, List.count_cons]

/-- Three steps complete a new request with the response for it. -/
theorem Conn.step_three (req : IncomingMessage) :
    Conn.step^[3] (Conn.start req) = Conn.done req := by
  unfold Conn.start Conn.done newResponse responseFor
  cases isHead req <;> rfl

/-- A completed request does not move. -/
theorem Conn.step_done (req : IncomingMessage) (k : Nat) :
    Conn.step^[k] (Conn.done req) = Conn.done req := by
  induction k with
  | zero => rfl
  | succ n ih =>
    rw [Function.iterate_succ_apply]
    exact ih

/-- No number of steps makes a new request throw. -/
theorem Conn.step_never_throws (req : IncomingMessage) (k : Nat) :
    (Conn.step^[k] (Conn.start req)).thrown = none := by
  match k with
  | 0 => rfl
  | 1 => rfl
  | 2 => rfl
  | n + 3 =>
    rw [Function.iterate_add_apply, Conn.step_three, Conn.step_done]
    rfl

/-- C8 (as amended): requests handled concurrently do not interfere.  Under
any schedule that interleaves the listener statements of any number of
requests, the state of request `i` is determined by the number of steps
request `i` itself was given; it never throws; and once it was given its
three steps its response is the response for that request alone: status 200,
`Content-Type: text/plain`, and the body `Hello aws cloud demos!!ver26`, or
the empty body when its method is `HEAD`. -/
theorem concurrent_requests_do_not_interfere (reqs : List IncomingMessage) (sched : List Nat)
    (i : Nat) (req : IncomingMessage) (hReq : reqs[i]? = some req) :
    (runSchedule sched (accept reqs))[i]? =
      some (Conn.step^[sched.count i] (Conn.start req)) ∧
    (Conn.step^[sched.count i] (Conn.start req)).thrown = none ∧
    (3 ≤ sched.count i →
      (runSchedule sched (accept reqs))[i]? = some (Conn.done req) ∧
      (Conn.done req).res.statusCode = 200 ∧
      (Conn.done req).res.getHeader "Content-Type" = some "text/plain" ∧
      (Conn.done req).res.body =
        (if req.method = "HEAD" then "" else "Hello aws cloud demos!!ver26")) := by
  have hRun : (runSchedule sched (accept reqs))[i]? =
      some (Conn.step^[sched.count i] (Conn.start req)) := by
    rw [runSchedule_getElem?]
    simp [accept, hReq]
  refine ⟨hRun, Conn.step_never_throws req _, fun h3 => ⟨?_, ?_, ?_, ?_⟩⟩
  · obtain ⟨k, hk⟩ := Nat.exists_eq_add_of_le h3
    rw [hRun, hk, Nat.add_comm, Function.iterate_add_apply, Conn.step_three, Conn.step_done]
  all_goals
    unfold Conn.done responseFor isHead
    by_cases h : req.method = "HEAD" <;> simp [h] <;> rfl

/-- C8 at a concrete input: two requests whose statements alternate; the
first one, having had its three steps, holds its completed response. -/
theorem concurrent_requests_do_not_interfere_witness :
    (runSchedule [1, 0, 1, 0, 0, 1]
        (accept [⟨"GET", "/", "1.1", [], ""⟩, ⟨"POST", "/anything", "1.1", [], "x"⟩]))[0]? =
      some (Conn.done ⟨"GET", "/", "1.1", [], ""⟩) :=
  ((concurrent_requests_do_not_interfere
      [⟨"GET", "/", "1.1", [], ""⟩, ⟨"POST", "/anything", "1.1", [], "x"⟩]
      [1, 0, 1, 0, 0, 1] 0 ⟨"GET", "/", "1.1", [], ""⟩ rfl).2.2 (by decide)).1

/-- C8 as stated fails: of two connections handled in alternation, the one
carrying a `HEAD` request completes without the literal body. -/
theorem concurrent_head_has_no_body :
    ((runSchedule [1, 0, 1, 0, 0, 1]
        (accept [⟨"HEAD", "/", "1.1", [], ""⟩, ⟨"GET", "/", "1.1", [], ""⟩]))[0]?).map
        (fun c => (c.pc, c.res.body)) = some (3, "") ∧
    ((runSchedule [1, 0, 1, 0, 0, 1]
        (accept [⟨"HEAD", "/", "1.1", [], ""⟩, ⟨"GET", "/", "1.1", [], ""⟩]))[0]?).map
        (fun c => c.res.body) ≠ some "Hello aws cloud demos!!ver26" := by
  constructor <;> decide

end CDK2
